import Mathlib

/-!
# Verification of the tldraw whiteboard synchronization client

Shallow embedding of the sync-relevant parts of
`apps/examples/src/WhiteboardRoute.tsx` (load effect, throttled save
effect, mount handler), of `getColorValue` / `isDefaultThemeColor`
from the tlschema color-style module, and of
`DefaultQuickActionsContent`.

Machine integers do not occur; times are naturals.  The store is
modelled as its document-scoped record set (an association list from
record id to payload) together with the revision counter; `loadSnapshot`
replaces the document-scoped records wholesale, as the store contract
specifies.  `JSON.parse` composed with `res.json()` is an external
collaborator and is passed in as a parameter `parse : String → Option Doc`.
-/

namespace Whiteboard

/-- A document-scoped record: identifier paired with an opaque payload. -/
abbrev Rec := String × String

/-- The document-scoped contents of the store. -/
abbrev Doc := List Rec

/-- The record store: document-scoped records plus the revision counter
(session-scoped records are not touched by any code path modelled here). -/
structure Store where
  doc : Doc
  revision : Nat
  deriving Repr, DecidableEq

/-- The store created by `createTLStore()`: empty document, revision 0. -/
def createTLStore : Store := { doc := [], revision := 0 }

/-- `loadSnapshot(store, snap)`: replaces all document-scoped records with
the snapshot contents as one committed transaction (one revision bump). -/
def loadSnapshot (s : Store) (snap : Doc) : Store :=
  { doc := snap, revision := s.revision + 1 }

/-- `getSnapshot(store)`: point-in-time capture of the document-scoped
records. -/
def getSnapshot (s : Store) : Doc := s.doc

/-- A committed transaction editing the document-scoped records. -/
def transact (s : Store) (f : Doc → Doc) : Store :=
  { doc := f s.doc, revision := s.revision + 1 }

/-- `LoadState` from WhiteboardRoute.tsx:
`{status:'loading'} | {status:'ready'} | {status:'error'; error: string}`. -/
inductive LoadState where
  | loading
  | ready
  | error (msg : String)
  deriving Repr, DecidableEq

/-- The component state the load effect and mount handler touch:
the store, the React `state`, `snapshotRef` and `editorRef`.
`editorRef` is `true` when an editor object has been stored in the ref
(the editor owns the same `store`, so only attachment is recorded). -/
structure ClientState where
  store : Store
  loadState : LoadState
  snapshotRef : Option Doc
  editorRef : Bool
  deriving Repr, DecidableEq

/-- Result of `await fetch(whiteboardUrl)`: either the promise rejects
(transport failure carrying a message) or a response with a status code
and a body arrives. -/
inductive FetchResult where
  | failure (msg : String)
  | success (status : Nat) (body : String)
  deriving Repr, DecidableEq

/-- `res.ok`: status in the inclusive range 200–299. -/
def resOk (status : Nat) : Bool := 200 ≤ status && status ≤ 299

/-- Start of the load effect (lines 137–139 of WhiteboardRoute.tsx):
`setState({status:'loading'}); snapshotRef.current = null`. -/
def effectStart (c : ClientState) : ClientState :=
  { c with loadState := .loading, snapshotRef := none }

/-- The body of the `load` async function (lines 141–171 of
WhiteboardRoute.tsx), run at the point where the fetch has resolved.
`cancelled` is the value of the closure flag at that point: it is set to
`true` by the effect teardown, so `cancelled = true` models a fetch that
resolves after teardown.  `parse` models `JSON.parse(raw.snapshot)`
composed with `await res.json()`; `none` models a thrown parse error.

Faithful detail: only the `setState` calls are guarded by `!cancelled`;
the assignment to `snapshotRef.current` and the call
`loadSnapshot(editorRef.current.store, snapshotRef.current)` are not. -/
def runLoad (parse : String → Option Doc) (cancelled : Bool)
    (result : FetchResult) (c : ClientState) : ClientState :=
  match result with
  | .failure msg =>
      -- fetch rejected; caught by the catch block
      if cancelled then c else { c with loadState := .error msg }
  | .success status body =>
      if status == 404 then
        if cancelled then c else { c with loadState := .ready }
      else if !resOk status then
        -- `throw new Error(...)` caught by the catch block
        if cancelled then c
        else { c with loadState :=
                 .error ("Failed to load (" ++ toString status ++ ")") }
      else
        match parse body with
        | none =>
            -- res.json() / JSON.parse threw; caught by the catch block
            if cancelled then c
            else { c with loadState := .error "parse error" }
        | some snap =>
            let c1 := { c with snapshotRef := some snap }
            let c2 :=
              if c1.editorRef then
                { c1 with store := loadSnapshot c1.store snap }
              else c1
            if cancelled then c2 else { c2 with loadState := .ready }

/-- The document-relevant part of the `onMount` handler (lines 358–365):
the editor is stored in `editorRef` and, if a snapshot has been buffered
in `snapshotRef`, it is applied via `loadSnapshot`.  (The remaining calls
in `onMount` touch only session-scoped state.) -/
def onMount (c : ClientState) : ClientState :=
  let c1 := { c with editorRef := true }
  match c1.snapshotRef with
  | some snap => { c1 with store := loadSnapshot c1.store snap }
  | none => c1

end Whiteboard

namespace Whiteboard

/-! ## Load-path theorems (claims about the `load` effect) -/

/-- C1 counterexample ingredients: a parse function for the concrete run. -/
def parse0 : String → Option Doc :=
  fun body => if body = "body" then some [("a", "1")] else none

/-- The concrete client state for the C1 counterexample: editor already
attached (the `editorRef` set by a previous mount survives effect
teardown), empty store, load in progress. -/
def c1Start : ClientState :=
  { store := createTLStore, loadState := .loading,
    snapshotRef := none, editorRef := true }

/-- Same state with no attached editor. -/
def c1NoEditor : ClientState :=
  { store := createTLStore, loadState := .loading,
    snapshotRef := none, editorRef := false }

/-! ## The throttled save effect

`throttle(save, 500)` from lodash is `debounce(save, 500,
{leading: true, maxWait: 500, trailing: true})`.  The embedding below
translates lodash's `debounce` internals specialised to these options
(`leading`, `trailing` and `maxing` are all true and `maxWait = wait`).
Times are naturals (milliseconds). -/

/-- The throttle interval passed in WhiteboardRoute.tsx: 500 ms. -/
def wait : Nat := 500

/-- The mutable closure state of lodash `debounce`: `lastInvokeTime`
(initialised to 0), `lastCallTime` (undefined until the first call),
`lastArgs` (modelled by whether it is defined) and `timerId` (modelled
by the armed timer's expiry target, `none` when no timer is pending). -/
structure ThrottleState where
  lastInvokeTime : Nat
  lastCallTime : Option Nat
  hasLastArgs : Bool
  timerId : Option Nat
  deriving Repr, DecidableEq

/-- Fresh throttle: `lastInvokeTime = 0`, everything else undefined. -/
def ThrottleState.initial : ThrottleState :=
  { lastInvokeTime := 0, lastCallTime := none,
    hasLastArgs := false, timerId := none }

/-- lodash `shouldInvoke(time)`: first call, or `wait` has elapsed since
the last call, or time went backwards, or (`maxing`) `maxWait = wait`
has elapsed since the last invocation. -/
def shouldInvoke (s : ThrottleState) (t : Nat) : Bool :=
  match s.lastCallTime with
  | none => true
  | some lc => (wait ≤ t - lc) || (t < lc) || (wait ≤ t - s.lastInvokeTime)

/-- lodash `remainingWait(time)` with `maxing = true`. -/
def remainingWait (s : ThrottleState) (t : Nat) : Nat :=
  min (wait - (t - s.lastCallTime.getD 0)) (wait - (t - s.lastInvokeTime))

/-- The `debounced` entry point — what the store listener calls.  Returns
the new closure state and whether `func` (the save body) runs right now.
With `leading = true` a call finding no armed timer and `shouldInvoke`
true is a leading-edge invocation; with `maxing = true` a call finding
an armed timer but `shouldInvoke` true invokes immediately and re-arms
the timer; otherwise the call only records `lastArgs`/`lastCallTime`
and arms the timer if none is armed. -/
def throttleCall (s : ThrottleState) (t : Nat) : ThrottleState × Bool :=
  let isInvoking := shouldInvoke s t
  let s1 := { s with hasLastArgs := true, lastCallTime := some t }
  if isInvoking then
    match s1.timerId with
    | none =>
        -- leadingEdge: lastInvokeTime = time; arm timer; invokeFunc
        ({ s1 with lastInvokeTime := t, hasLastArgs := false,
                   timerId := some (t + wait) }, true)
    | some _ =>
        -- maxing: re-arm the timer and invokeFunc immediately
        ({ s1 with lastInvokeTime := t, hasLastArgs := false,
                   timerId := some (t + wait) }, true)
  else
    match s1.timerId with
    | none => ({ s1 with timerId := some (t + wait) }, false)
    | some _ => (s1, false)

/-- lodash `timerExpired` running at time `t`; a no-op when no timer is
armed (the browser holds no callback).  `trailingEdge` drops the timer
and invokes `func` iff `trailing` is set and `lastArgs` is defined;
otherwise the timer is re-armed for the remaining window. -/
def throttleExpire (s : ThrottleState) (t : Nat) : ThrottleState × Bool :=
  match s.timerId with
  | none => (s, false)
  | some _ =>
      if shouldInvoke s t then
        let s1 := { s with timerId := none }
        if s1.hasLastArgs then
          ({ s1 with lastInvokeTime := t, hasLastArgs := false }, true)
        else
          (s1, false)
      else
        ({ s with timerId := some (t + remainingWait s t) }, false)

/-- lodash `cancel()`: clear the timer and reset all closure state. -/
def throttleCancel (_s : ThrottleState) : ThrottleState :=
  { lastInvokeTime := 0, lastCallTime := none,
    hasLastArgs := false, timerId := none }

/-! ## The save effect as a transition system

Events of the save effect's life: a committed document-scope transaction
(which the `store.listen(save, {scope:'document'})` listener turns into a
`save()` call), a `loadSnapshot` application (also a document-scope
transaction, so it triggers the listener too), the throttle timer
firing, a `PUT` network call settling, and the effect teardown
(`unsubscribe(); save.cancel()`). -/

inductive SEvent where
  | edit (t : Nat) (f : Doc → Doc)
  | apply (t : Nat) (snap : Doc)
  | expire (t : Nat)
  | saveResult (ok : Bool)
  | teardown

/-- State of the save effect: the store, the throttle closure, whether
the effect has been torn down, and the log of network writes, newest
first, each `(send time, payload)` where the payload is
`getSnapshot(store)` evaluated inside the save body at send time. -/
structure SysState where
  store : Store
  th : ThrottleState
  torn : Bool
  sent : List (Nat × Doc)
  deriving Repr, DecidableEq

/-- System at effect setup: fresh store, fresh throttle, nothing sent. -/
def sysInit : SysState :=
  { store := createTLStore, th := .initial, torn := false, sent := [] }

/-- One step of the save effect.  A transaction always commits to the
store; the listener forwards it to the throttle only while subscribed.
When the throttle invokes the save body, the body reads
`getSnapshot(store)` at that moment — the state *after* the triggering
transaction.  A settling `PUT` changes nothing (failures are only
logged).  Teardown unsubscribes and cancels the throttle. -/
def sysStep (s : SysState) (e : SEvent) : SysState :=
  match e with
  | .edit t f =>
      let store := transact s.store f
      if s.torn then { s with store := store }
      else
        let r := throttleCall s.th t
        { store := store, th := r.1, torn := s.torn,
          sent := if r.2 then (t, getSnapshot store) :: s.sent else s.sent }
  | .apply t snap =>
      let store := loadSnapshot s.store snap
      if s.torn then { s with store := store }
      else
        let r := throttleCall s.th t
        { store := store, th := r.1, torn := s.torn,
          sent := if r.2 then (t, getSnapshot store) :: s.sent else s.sent }
  | .expire t =>
      let r := throttleExpire s.th t
      { s with th := r.1,
               sent := if r.2 then (t, getSnapshot s.store) :: s.sent else s.sent }
  | .saveResult _ => s
  | .teardown => { s with torn := true, th := throttleCancel s.th }

/-- Run a list of events. -/
def sysRun (s : SysState) (es : List SEvent) : SysState := es.foldl sysStep s

/-- The wall-clock time of an event, when it has one. -/
def eventTime : SEvent → Option Nat
  | .edit t _ => some t
  | .apply t _ => some t
  | .expire t => some t
  | .saveResult _ => none
  | .teardown => none

/-- The wall-clock time of an event, defaulting to 0 for timeless ones. -/
def eventTimeD (e : SEvent) : Nat := (eventTime e).getD 0

/-- Well-formed trace from time `now`: event times never decrease. -/
def wfFrom (now : Nat) : List SEvent → Bool
  | [] => true
  | e :: es =>
      match eventTime e with
      | some t => Nat.ble now t && wfFrom t es
      | none => wfFrom now es

/-- Send times of the write log (newest first). -/
def sentTimes (s : SysState) : List Nat := s.sent.map Prod.fst

/-- Rate-limit shape of a (newest-first) list of send times: among any
three consecutive sends the outer two are at least `wait` apart. -/
def spacedRev : List Nat → Bool
  | w :: v :: u :: rest => Nat.ble (u + wait) w && spacedRev (v :: u :: rest)
  | _ => true

/-- Effect of an event on the document-scoped records alone. -/
def applyDocEvent (d : Doc) : SEvent → Doc
  | .edit _ f => f d
  | .apply _ snap => snap
  | .expire _ => d
  | .saveResult _ => d
  | .teardown => d

/-- Document contents after a list of events. -/
def docAfter (d : Doc) (es : List SEvent) : Doc := es.foldl applyDocEvent d

/-- Inductive invariant of the save effect, relative to the current
wall-clock time `now`:  all recorded throttle times are in the past;
while subscribed, `lastInvokeTime` is the newest send time; a defined
`lastArgs` postdates the last invocation; send times are antitone
(newest first) and rate-limit spaced; when the two newest sends are
closer than `wait`, the newest was a call-side invocation so
`lastCallTime` postdates it; and after teardown no timer is armed. -/
def Inv (now : Nat) (s : SysState) : Prop :=
  (∀ c, s.th.lastCallTime = some c → c ≤ now) ∧
  (s.torn = false → s.th.lastInvokeTime ≤ now) ∧
  (s.torn = false → ∀ v rest, sentTimes s = v :: rest →
    s.th.lastInvokeTime = v) ∧
  (s.th.hasLastArgs = true →
    ∃ c, s.th.lastCallTime = some c ∧ s.th.lastInvokeTime ≤ c) ∧
  List.Chain' (fun a b => b ≤ a) (sentTimes s) ∧
  spacedRev (sentTimes s) = true ∧
  (s.torn = false → ∀ v u rest, sentTimes s = v :: u :: rest →
    v < u + wait → ∃ c, s.th.lastCallTime = some c ∧ v ≤ c) ∧
  (s.torn = true → s.th.timerId = none)

/-- Concrete edit used in counterexample traces: prepend one shape. -/
def insShape : Doc → Doc := fun d => ("shape1", "x") :: d

/-- Counterexample trace for the rate-limit claim: a leading fire at 0,
a quiet edit at 1, the trailing fire at 500, and a fresh leading fire at
501 — the last two writes are 1 ms apart. -/
def c7trace : List SEvent :=
  [.edit 0 insShape, .edit 1 insShape, .expire 500, .edit 501 insShape]

/-- Counterexample trace for the load-never-clobbers claim: an edit at 0
(leading save fires), then the fetched empty snapshot is applied at 1
(`loadSnapshot` while the editor holds the store), then the trailing
save fires at 501. -/
def c2trace : List SEvent :=
  [.edit 0 insShape, .apply 1 [], .expire 501]

end Whiteboard

/-! ## Color styles (tlschema default-color-style module) -/

namespace ColorStyle

/-- `defaultColorNames` from the tlschema color-style module. -/
def defaultColorNames : List String :=
  ["black", "grey", "light-violet", "violet", "blue", "light-blue",
   "yellow", "orange", "green", "light-green", "light-red", "red", "white"]

/-- The color variants available for each color in the default theme
(`TLDefaultColorThemeColor`). -/
structure TLDefaultColorThemeColor where
  solid : String
  semi : String
  pattern : String
  fill : String
  linedFill : String
  frameHeadingStroke : String
  frameHeadingFill : String
  frameStroke : String
  frameFill : String
  frameText : String
  noteFill : String
  noteText : String
  highlightSrgb : String
  highlightP3 : String
  deriving Repr, DecidableEq

/-- A key of `TLDefaultColorThemeColor` — the `variant` parameter of
`getColorValue`. -/
inductive ColorVariant where
  | solid | semi | pattern | fill | linedFill
  | frameHeadingStroke | frameHeadingFill | frameStroke | frameFill
  | frameText | noteFill | noteText | highlightSrgb | highlightP3
  deriving Repr, DecidableEq

/-- Indexing a palette row by variant: `row[variant]`. -/
def TLDefaultColorThemeColor.get (c : TLDefaultColorThemeColor) :
    ColorVariant → String
  | .solid => c.solid
  | .semi => c.semi
  | .pattern => c.pattern
  | .fill => c.fill
  | .linedFill => c.linedFill
  | .frameHeadingStroke => c.frameHeadingStroke
  | .frameHeadingFill => c.frameHeadingFill
  | .frameStroke => c.frameStroke
  | .frameFill => c.frameFill
  | .frameText => c.frameText
  | .noteFill => c.noteFill
  | .noteText => c.noteText
  | .highlightSrgb => c.highlightSrgb
  | .highlightP3 => c.highlightP3

/-- `TLDefaultColorTheme`: base properties plus one palette row per
default color name. -/
structure TLDefaultColorTheme where
  id : String
  text : String
  background : String
  solid : String
  black : TLDefaultColorThemeColor
  grey : TLDefaultColorThemeColor
  lightViolet : TLDefaultColorThemeColor
  violet : TLDefaultColorThemeColor
  blue : TLDefaultColorThemeColor
  lightBlue : TLDefaultColorThemeColor
  yellow : TLDefaultColorThemeColor
  orange : TLDefaultColorThemeColor
  green : TLDefaultColorThemeColor
  lightGreen : TLDefaultColorThemeColor
  lightRed : TLDefaultColorThemeColor
  red : TLDefaultColorThemeColor
  white : TLDefaultColorThemeColor
  deriving Repr, DecidableEq

/-- `theme[color]` for a default color name.  In TypeScript the index is
only ever evaluated under the `isDefaultThemeColor` guard, so the
fallback row for a non-name (never reached by `getColorValue`) is
immaterial; `black` is used. -/
def themeColor (th : TLDefaultColorTheme) (color : String) :
    TLDefaultColorThemeColor :=
  if color = "black" then th.black
  else if color = "grey" then th.grey
  else if color = "light-violet" then th.lightViolet
  else if color = "violet" then th.violet
  else if color = "blue" then th.blue
  else if color = "light-blue" then th.lightBlue
  else if color = "yellow" then th.yellow
  else if color = "orange" then th.orange
  else if color = "green" then th.green
  else if color = "light-green" then th.lightGreen
  else if color = "light-red" then th.lightRed
  else if color = "red" then th.red
  else if color = "white" then th.white
  else th.black

/-- `isDefaultThemeColor(color)`: membership in the default color-name
set (`defaultColorNamesSet.has(color)`). -/
def isDefaultThemeColor (color : String) : Bool :=
  defaultColorNames.contains color

/-- `getColorValue(theme, color, variant)`: pass a non-default color
through unchanged, otherwise look up `theme[color][variant]`. -/
def getColorValue (theme : TLDefaultColorTheme) (color : String)
    (variant : ColorVariant) : String :=
  if !isDefaultThemeColor color then color
  else (themeColor theme color).get variant

/-- A concrete palette row used by witnesses. -/
def testRow : TLDefaultColorThemeColor :=
  { solid := "#e03131", semi := "#f4dadb", pattern := "#e55959"
    fill := "#e03131", linedFill := "#e55959"
    frameHeadingStroke := "#e55959", frameHeadingFill := "#fef9f9"
    frameStroke := "#e55959", frameFill := "#fef9f9", frameText := "#000000"
    noteFill := "#FC8282", noteText := "#000000"
    highlightSrgb := "#fc7075", highlightP3 := "color(display-p3 1 0 0)" }

/-- A concrete theme used by witnesses. -/
def testTheme : TLDefaultColorTheme :=
  { id := "light", text := "#000000", background := "#f9fafb"
    solid := "#fcfffe"
    black := testRow, grey := testRow, lightViolet := testRow
    violet := testRow, blue := testRow, lightBlue := testRow
    yellow := testRow, orange := testRow, green := testRow
    lightGreen := testRow, lightRed := testRow, red := testRow
    white := testRow }

end ColorStyle

/-! ## DefaultQuickActionsContent -/

namespace QuickActions

/-- Internal flag in DefaultQuickActionsContent.tsx. -/
def USE_REDO_GROUP : Bool := false

/-- Internal flag in DefaultQuickActionsContent.tsx. -/
def USE_DELETE_DUPLICATE_GROUP : Bool := false

/-- A menu action item the component could render, with its disabled
state. -/
inductive ActionItem where
  | undo (disabled : Bool)
  | redo (disabled : Bool)
  | delete (disabled : Bool)
  | duplicate (disabled : Bool)
  deriving Repr, DecidableEq

/-- The `UndoRedoGroup` sub-component's items. -/
def UndoRedoGroup (canUndo canRedo : Bool) : List ActionItem :=
  [.undo (!canUndo), .redo (!canRedo)]

/-- The `DeleteDuplicateGroup` sub-component's items. -/
def DeleteDuplicateGroup (oneSelected isInSelectState : Bool) :
    List ActionItem :=
  [.delete (!(oneSelected && isInSelectState)),
   .duplicate (!(oneSelected && isInSelectState))]

/-- The rendered output of `DefaultQuickActionsContent`: `none` models
the bare `return` (readonly mode outside the select/hand/zoom states),
`some items` models the returned fragment. -/
def DefaultQuickActionsContent (isReadonlyMode isInAcceptableReadonlyState
    canUndo canRedo oneSelected isInSelectState : Bool) :
    Option (List ActionItem) :=
  if isReadonlyMode && !isInAcceptableReadonlyState then none
  else some
    ((if USE_REDO_GROUP then UndoRedoGroup canUndo canRedo else []) ++
     (if USE_DELETE_DUPLICATE_GROUP then
        DeleteDuplicateGroup oneSelected isInSelectState
      else []))

end QuickActions

namespace Whiteboard

/-- C1 (counterexample): the claim says a fetch resolving after teardown
leaves the store untouched.  It does not: with `cancelled = true` and an
editor already held in `editorRef`, a successful fetch still calls
`loadSnapshot` — only the `setState` calls are guarded by the flag.
Concretely, the cancelled run replaces the empty store's document with
the fetched snapshot `[("a","1")]`. -/
theorem load_after_teardown_still_applies_snapshot :
    (runLoad parse0 true (.success 200 "body") c1Start).store ≠ c1Start.store ∧
    (runLoad parse0 true (.success 200 "body") c1Start).store.doc = [("a", "1")] := by
  decide

/-- C1 (amended): after teardown the client performs no late state
transition (`loadState` is unchanged in every branch), and if no editor
is attached at resolution time the store is also untouched; but when an
editor is attached, a successful fetch is still applied via
`loadSnapshot` even after teardown. -/
theorem load_cancelled_no_state_transition (parse : String → Option Doc)
    (result : FetchResult) (c : ClientState) :
    (runLoad parse true result c).loadState = c.loadState ∧
    (c.editorRef = false → (runLoad parse true result c).store = c.store) := by
  constructor
  · cases result with
    | failure msg => simp [runLoad]
    | success status body =>
        by_cases h404 : (status == 404) = true
        · simp [runLoad, h404]
        · by_cases hok : resOk status = true
          · have h404' : (status == 404) = false := by simpa using h404
            cases hp : parse body with
            | none => simp [runLoad, h404', hok, hp]
            | some snap =>
                cases hEd : c.editorRef <;> simp [runLoad, h404', hok, hp, hEd]
          · have h404' : (status == 404) = false := by simpa using h404
            have hok' : resOk status = false := by simpa using hok
            simp [runLoad, h404', hok']
  · intro hEd
    cases result with
    | failure msg => simp [runLoad]
    | success status body =>
        by_cases h404 : (status == 404) = true
        · simp [runLoad, h404]
        · by_cases hok : resOk status = true
          · have h404' : (status == 404) = false := by simpa using h404
            cases hp : parse body with
            | none => simp [runLoad, h404', hok, hp]
            | some snap => simp [runLoad, h404', hok, hp, hEd]
          · have h404' : (status == 404) = false := by simpa using h404
            have hok' : resOk status = false := by simpa using hok
            simp [runLoad, h404', hok']

/-- Witness for the amended C1 at a concrete cancelled run with no
attached editor: the state stays `loading` and the store stays empty. -/
theorem load_cancelled_no_state_transition_witness :
    (runLoad parse0 true (.success 200 "body") c1NoEditor).loadState =
      LoadState.loading ∧
    (runLoad parse0 true (.success 200 "body") c1NoEditor).store =
      c1NoEditor.store :=
  ⟨(load_cancelled_no_state_transition parse0 (.success 200 "body") c1NoEditor).1,
   (load_cancelled_no_state_transition parse0 (.success 200 "body") c1NoEditor).2 rfl⟩

/-- C3: on a 2xx response whose payload parses, the live (not torn down)
client buffers the decoded snapshot in `snapshotRef`, applies it
immediately via `loadSnapshot` when the editor is attached and otherwise
leaves the store for `onMount` to apply it exactly at attachment time,
and transitions to `Ready`. -/
theorem load_success_applies_or_buffers (parse : String → Option Doc)
    (status : Nat) (body : String) (snap : Doc) (c : ClientState)
    (hok : resOk status = true) (hp : parse body = some snap) :
    (runLoad parse false (.success status body) c).loadState = .ready ∧
    (runLoad parse false (.success status body) c).snapshotRef = some snap ∧
    (c.editorRef = true →
      (runLoad parse false (.success status body) c).store =
        loadSnapshot c.store snap) ∧
    (c.editorRef = false →
      (runLoad parse false (.success status body) c).store = c.store ∧
      (onMount (runLoad parse false (.success status body) c)).store =
        loadSnapshot c.store snap) := by
  have h404 : (status == 404) = false := by
    simp only [resOk, Bool.and_eq_true, decide_eq_true_eq] at hok
    simp only [beq_eq_false_iff_ne, ne_eq]
    omega
  cases hEd : c.editorRef with
  | true => simp [runLoad, h404, hok, hp, hEd]
  | false => simp [runLoad, onMount, h404, hok, hp, hEd]

/-- Witness for C3 at a concrete run: status 200, payload parsing to
`[("a","1")]`, editor not yet attached; the snapshot is buffered, state
becomes `Ready`, and mounting applies it. -/
theorem load_success_applies_or_buffers_witness :
    (runLoad parse0 false (.success 200 "body") c1NoEditor).loadState = .ready ∧
    (runLoad parse0 false (.success 200 "body") c1NoEditor).snapshotRef =
      some [("a", "1")] ∧
    (c1NoEditor.editorRef = true →
      (runLoad parse0 false (.success 200 "body") c1NoEditor).store =
        loadSnapshot c1NoEditor.store [("a", "1")]) ∧
    (c1NoEditor.editorRef = false →
      (runLoad parse0 false (.success 200 "body") c1NoEditor).store =
        c1NoEditor.store ∧
      (onMount (runLoad parse0 false (.success 200 "body") c1NoEditor)).store =
        loadSnapshot c1NoEditor.store [("a", "1")]) :=
  load_success_applies_or_buffers parse0 200 "body" [("a", "1")] c1NoEditor
    (by decide) (by decide)

/-- C4: a 404 response on a live client transitions to `Ready`, applies
no snapshot (the store and `snapshotRef` are untouched), and a store in
its initial empty-document state stays empty. -/
theorem load_404_ready_store_empty (parse : String → Option Doc)
    (body : String) (c : ClientState) :
    (runLoad parse false (.success 404 body) c).loadState = .ready ∧
    (runLoad parse false (.success 404 body) c).store = c.store ∧
    (runLoad parse false (.success 404 body) c).snapshotRef = c.snapshotRef ∧
    (c.store = createTLStore →
      (runLoad parse false (.success 404 body) c).store.doc = []) := by
  refine ⟨by simp [runLoad], by simp [runLoad], by simp [runLoad], ?_⟩
  intro h
  simp [runLoad, h, createTLStore]

/-- Witness for C4: the scenario of the spec — fresh activation, server
returns 404, store stays empty and state becomes `Ready`. -/
theorem load_404_ready_store_empty_witness :
    (runLoad parse0 false (.success 404 "") (effectStart c1NoEditor)).loadState =
      .ready ∧
    (runLoad parse0 false (.success 404 "") (effectStart c1NoEditor)).store =
      (effectStart c1NoEditor).store ∧
    (runLoad parse0 false (.success 404 "") (effectStart c1NoEditor)).snapshotRef =
      (effectStart c1NoEditor).snapshotRef ∧
    ((effectStart c1NoEditor).store = createTLStore →
      (runLoad parse0 false (.success 404 "") (effectStart c1NoEditor)).store.doc =
        []) :=
  load_404_ready_store_empty parse0 "" (effectStart c1NoEditor)

/-- C5: on a live client, a transport failure transitions to `Error`
carrying the failure message, and a non-success non-404 HTTP response
transitions to `Error` carrying the human-readable
`Failed to load (<status>)`; in both cases the load path leaves the
store (and the buffered snapshot) unmodified. -/
theorem load_failure_error_store_unmodified (parse : String → Option Doc)
    (c : ClientState) :
    (∀ msg,
      (runLoad parse false (.failure msg) c).loadState = .error msg ∧
      (runLoad parse false (.failure msg) c).store = c.store ∧
      (runLoad parse false (.failure msg) c).snapshotRef = c.snapshotRef) ∧
    (∀ status body, resOk status = false → status ≠ 404 →
      (runLoad parse false (.success status body) c).loadState =
        .error ("Failed to load (" ++ toString status ++ ")") ∧
      (runLoad parse false (.success status body) c).store = c.store ∧
      (runLoad parse false (.success status body) c).snapshotRef =
        c.snapshotRef) := by
  constructor
  · intro msg
    simp [runLoad]
  · intro status body hok h404
    have h404' : (status == 404) = false := by
      simp only [beq_eq_false_iff_ne, ne_eq]
      exact h404
    simp [runLoad, h404', hok]

/-- Witness for C5 at concrete runs: a transport failure with message
`"boom"` and an HTTP 500 both produce the `Error` state with the store
untouched. -/
theorem load_failure_error_store_unmodified_witness :
    ((runLoad parse0 false (.failure "boom") c1NoEditor).loadState =
       .error "boom" ∧
     (runLoad parse0 false (.failure "boom") c1NoEditor).store =
       c1NoEditor.store ∧
     (runLoad parse0 false (.failure "boom") c1NoEditor).snapshotRef =
       c1NoEditor.snapshotRef) ∧
    ((runLoad parse0 false (.success 500 "") c1NoEditor).loadState =
       .error "Failed to load (500)" ∧
     (runLoad parse0 false (.success 500 "") c1NoEditor).store =
       c1NoEditor.store ∧
     (runLoad parse0 false (.success 500 "") c1NoEditor).snapshotRef =
       c1NoEditor.snapshotRef) :=
  ⟨(load_failure_error_store_unmodified parse0 c1NoEditor).1 "boom",
   (load_failure_error_store_unmodified parse0 c1NoEditor).2 500 ""
     (by decide) (by decide)⟩

/-! ## Save-effect helper lemmas -/

/-- One event changes the document contents exactly as `applyDocEvent`
describes: transactions commit whether or not the save listener is still
subscribed. -/
theorem step_doc (s : SysState) (e : SEvent) :
    getSnapshot (sysStep s e).store = applyDocEvent (getSnapshot s.store) e := by
  cases e with
  | edit t f =>
      cases hT : s.torn <;> simp [sysStep, hT, transact, getSnapshot, applyDocEvent]
  | apply t snap =>
      cases hT : s.torn <;>
        simp [sysStep, hT, loadSnapshot, getSnapshot, applyDocEvent]
  | expire t => rfl
  | saveResult ok => rfl
  | teardown => rfl

/-- After any run, the document contents are the fold of the trace's
document events over the starting contents. -/
theorem run_doc (s : SysState) (es : List SEvent) :
    getSnapshot (sysRun s es).store = docAfter (getSnapshot s.store) es := by
  induction es generalizing s with
  | nil => rfl
  | cons e es ih =>
      show getSnapshot (sysRun (sysStep s e) es).store = _
      rw [ih (sysStep s e), step_doc]
      rfl

/-- Every step either sends nothing or sends exactly one write whose
payload is `getSnapshot` of the store *after* the step — the snapshot
taken inside the save body at send time. -/
theorem step_sent_cases (s : SysState) (e : SEvent) :
    (sysStep s e).sent = s.sent ∨
    (sysStep s e).sent =
      (eventTimeD e, getSnapshot (sysStep s e).store) :: s.sent := by
  cases e with
  | edit t f =>
      cases hT : s.torn with
      | true => left; simp [sysStep, hT]
      | false =>
          cases hr : (throttleCall s.th t).2 with
          | true =>
              right
              simp [sysStep, hT, hr, eventTimeD, eventTime]
          | false => left; simp [sysStep, hT, hr]
  | apply t snap =>
      cases hT : s.torn with
      | true => left; simp [sysStep, hT]
      | false =>
          cases hr : (throttleCall s.th t).2 with
          | true =>
              right
              simp [sysStep, hT, hr, eventTimeD, eventTime]
          | false => left; simp [sysStep, hT, hr]
  | expire t =>
      cases hr : (throttleExpire s.th t).2 with
      | true => right; simp [sysStep, hr, eventTimeD, eventTime]
      | false => left; simp [sysStep, hr]
  | saveResult ok => left; rfl
  | teardown => left; rfl

/-- After teardown (unsubscribed, timer cancelled) no event ever grows
the write log. -/
theorem run_sent_of_torn (s : SysState) (es : List SEvent)
    (hT : s.torn = true) (hTim : s.th.timerId = none) :
    (sysRun s es).sent = s.sent := by
  induction es generalizing s with
  | nil => rfl
  | cons e es ih =>
      have hstep : (sysStep s e).torn = true ∧
          (sysStep s e).th.timerId = none ∧ (sysStep s e).sent = s.sent := by
        cases e with
        | edit t f => simp [sysStep, hT, hTim]
        | apply t snap => simp [sysStep, hT, hTim]
        | expire t => simp [sysStep, throttleExpire, hTim, hT]
        | saveResult ok => exact ⟨hT, hTim, rfl⟩
        | teardown => simp [sysStep, throttleCancel]
      show (sysRun (sysStep s e) es).sent = s.sent
      rw [ih (sysStep s e) hstep.1 hstep.2.1, hstep.2.2]

/-! ## C6, C8, C2 -/

/-- C6: the payload of every save that fires is `getSnapshot()` taken at
send time — the store state after the very event that triggered or
released the save — and the store state at any point is exactly the fold
of all document transactions committed so far, so every save reflects
all edits committed up to the moment the network call is issued. -/
theorem save_payload_sampled_at_send_time :
    (∀ s e, (sysStep s e).sent = s.sent ∨
      (sysStep s e).sent =
        (eventTimeD e, getSnapshot (sysStep s e).store) :: s.sent) ∧
    (∀ s es, getSnapshot (sysRun s es).store =
      docAfter (getSnapshot s.store) es) :=
  ⟨step_sent_cases, run_doc⟩

/-- C8: a settling save — success or failure — changes nothing: the
store keeps all local edits (no rollback), the throttle and write log
are untouched (no blocking), and a save fired after a failure re-reads
the then-current store state, so it carries the previously-unsaved
changes rather than the failed payload. -/
theorem save_failure_logged_and_nonblocking :
    (∀ s ok, sysStep s (.saveResult ok) = s) ∧
    (∀ s t f,
      (sysStep (sysStep s (.saveResult false)) (.edit t f)).sent = s.sent ∨
      (sysStep (sysStep s (.saveResult false)) (.edit t f)).sent =
        (t, f (getSnapshot s.store)) :: s.sent) := by
  constructor
  · intro s ok; rfl
  · intro s t f
    have h := step_sent_cases s (.edit t f)
    have hd := step_doc s (.edit t f)
    rcases h with h | h
    · left; exact h
    · right
      rw [show sysStep s (.saveResult false) = s from rfl]
      rw [h, hd]
      rfl

/-- C2 (counterexample): the claim says a local edit committed before
the fetched snapshot is applied survives the application and appears in
the next save.  It does not: in the well-formed run "edit at 0, apply
the fetched empty snapshot at 1, trailing save at 501" the edit is gone
from the store after both complete, and the next save carries the empty
document, because `loadSnapshot` replaces all document-scoped records. -/
theorem load_apply_clobbers_earlier_edit :
    wfFrom 0 c2trace = true ∧
    (sysRun sysInit c2trace).store.doc = [] ∧
    (sysRun sysInit c2trace).sent = [(501, []), (0, [("shape1", "x")])] := by
  decide

/-- C2 (amended): the save path always re-samples current state, so an
edit committed *after* the snapshot application is in the store and in
the next save payload; an edit committed *before* an immediate
application is replaced by the snapshot contents. -/
theorem edit_after_load_apply_survives (s : SysState) (snap : Doc)
    (f : Doc → Doc) (t1 t2 : Nat) :
    (sysStep (sysStep s (.apply t1 snap)) (.edit t2 f)).store.doc = f snap ∧
    ∀ t3,
      (sysStep (sysStep (sysStep s (.apply t1 snap)) (.edit t2 f))
          (.expire t3)).sent =
        (sysStep (sysStep s (.apply t1 snap)) (.edit t2 f)).sent ∨
      (sysStep (sysStep (sysStep s (.apply t1 snap)) (.edit t2 f))
          (.expire t3)).sent =
        (t3, f snap) ::
          (sysStep (sysStep s (.apply t1 snap)) (.edit t2 f)).sent := by
  have hdoc : getSnapshot (sysStep (sysStep s (.apply t1 snap))
      (.edit t2 f)).store = f snap := by
    rw [step_doc, step_doc]
    rfl
  refine ⟨hdoc, ?_⟩
  intro t3
  have h := step_sent_cases (sysStep (sysStep s (.apply t1 snap)) (.edit t2 f))
    (.expire t3)
  have hd := step_doc (sysStep (sysStep s (.apply t1 snap)) (.edit t2 f))
    (.expire t3)
  rcases h with h | h
  · left; exact h
  · right
    rw [h, hd]
    show (t3, getSnapshot _) :: _ = _
    rw [hdoc]

/-! ## Throttle rate-limit invariant (C7) -/

/-- If `shouldInvoke` passes at a time `t` not before the last call,
then a full `wait` has elapsed since the last call or since the last
invocation. -/
theorem shouldInvoke_bound (th : ThrottleState) (t c : Nat)
    (hc : th.lastCallTime = some c) (hct : c ≤ t)
    (hI : shouldInvoke th t = true) :
    c + wait ≤ t ∨ th.lastInvokeTime + wait ≤ t := by
  have hw : wait = 500 := rfl
  unfold shouldInvoke at hI
  rw [hc] at hI
  simp only [Bool.or_eq_true, decide_eq_true_eq] at hI
  omega

/-- The invariant only constrains times from above, so it is monotone in
the clock. -/
theorem inv_mono (now t : Nat) (s : SysState) (hinv : Inv now s)
    (hnt : now ≤ t) : Inv t s := by
  unfold Inv at hinv ⊢
  obtain ⟨hA, hB, hC, hD, hE, hF, hG, hH⟩ := hinv
  exact ⟨fun c hc => le_trans (hA c hc) hnt, fun h => le_trans (hB h) hnt,
         hC, hD, hE, hF, hG, hH⟩

/-- Invariant after an invoking `save()` call (leading edge or maxing
re-invoke) at time `t`. -/
theorem inv_call_invoking (now t : Nat) (s : SysState) (store' : Store)
    (hinv : Inv now s) (hnt : now ≤ t) (hT : s.torn = false)
    (hI : shouldInvoke s.th t = true) :
    Inv t { store := store',
            th := { lastInvokeTime := t, lastCallTime := some t,
                    hasLastArgs := false, timerId := some (t + wait) },
            torn := false, sent := (t, getSnapshot store') :: s.sent } := by
  unfold Inv at hinv ⊢
  obtain ⟨hA, hB, hC, hD, hE, hF, hG, hH⟩ := hinv
  have hchain : List.Chain' (fun a b => b ≤ a) (t :: sentTimes s) := by
    rcases hs : s.sent with _ | ⟨⟨v, p⟩, tl⟩
    · have h0 : sentTimes s = [] := by simp [sentTimes, hs]
      rw [h0]
      exact List.chain'_singleton t
    · have hstS : sentTimes s = v :: tl.map Prod.fst := by simp [sentTimes, hs]
      have hv : s.th.lastInvokeTime = v := hC hT v (tl.map Prod.fst) hstS
      have hvn : v ≤ now := hv ▸ hB hT
      rw [hstS]
      refine List.chain'_cons.mpr ⟨le_trans hvn hnt, ?_⟩
      rw [← hstS]
      exact hE
  have hspaced : spacedRev (t :: sentTimes s) = true := by
    rcases hs : s.sent with _ | ⟨⟨v, p⟩, tl⟩
    · have h0 : sentTimes s = [] := by simp [sentTimes, hs]
      rw [h0]
      rfl
    · rcases htl : tl with _ | ⟨⟨u, q⟩, tl2⟩
      · have h1 : sentTimes s = [v] := by simp [sentTimes, hs, htl]
        rw [h1]
        rfl
      · have hstS : sentTimes s = v :: u :: tl2.map Prod.fst := by
          simp [sentTimes, hs, htl]
        have hv : s.th.lastInvokeTime = v := hC hT v _ hstS
        have hvn : v ≤ now := hv ▸ hB hT
        have huv : u ≤ v := by
          have h := hE
          rw [hstS] at h
          exact (List.chain'_cons.mp h).1
        have hut : u + wait ≤ t := by
          by_cases hvu : v < u + wait
          · obtain ⟨c, hc, hvc⟩ := hG hT v u (tl2.map Prod.fst) hstS hvu
            have hcn : c ≤ now := hA c hc
            rcases shouldInvoke_bound s.th t c hc (le_trans hcn hnt) hI with
              h1 | h2
            · omega
            · omega
          · omega
        have hFold : spacedRev (v :: u :: tl2.map Prod.fst) = true := by
          rw [← hstS]
          exact hF
        rw [hstS]
        show (Nat.ble (u + wait) t && spacedRev (v :: u :: tl2.map Prod.fst)) =
          true
        rw [Bool.and_eq_true]
        exact ⟨by rw [Nat.ble_eq]; exact hut, hFold⟩
  refine ⟨?_, ?_, ?_, ?_, hchain, hspaced, ?_, ?_⟩
  · intro c hc
    exact le_of_eq (Option.some.inj hc).symm
  · intro _
    exact le_refl t
  · intro _ v rest h
    have h' : t :: sentTimes s = v :: rest := h
    exact (List.cons_eq_cons.mp h').1
  · intro h
    exact Bool.noConfusion h
  · intro _ v u rest h hlt
    have h' : t :: sentTimes s = v :: u :: rest := h
    exact ⟨t, rfl, le_of_eq (List.cons_eq_cons.mp h').1.symm⟩
  · intro h
    exact Bool.noConfusion h

/-- Invariant after a quiet `save()` call (throttled: only records
args/time, arms a timer). -/
theorem inv_call_quiet (now t : Nat) (s : SysState) (store' : Store)
    (tid : Option Nat) (hinv : Inv now s) (hnt : now ≤ t)
    (hT : s.torn = false) :
    Inv t { store := store',
            th := { lastInvokeTime := s.th.lastInvokeTime,
                    lastCallTime := some t,
                    hasLastArgs := true, timerId := tid },
            torn := false, sent := s.sent } := by
  unfold Inv at hinv ⊢
  obtain ⟨hA, hB, hC, hD, hE, hF, hG, hH⟩ := hinv
  refine ⟨?_, ?_, ?_, ?_, hE, hF, ?_, ?_⟩
  · intro c hc
    exact le_of_eq (Option.some.inj hc).symm
  · intro _
    exact le_trans (hB hT) hnt
  · intro _ v rest h
    exact hC hT v rest h
  · intro _
    exact ⟨t, rfl, le_trans (hB hT) hnt⟩
  · intro _ v u rest h hlt
    obtain ⟨c, hc, hvc⟩ := hG hT v u rest h hlt
    exact ⟨t, rfl, le_trans hvc (le_trans (hA c hc) hnt)⟩
  · intro h
    exact Bool.noConfusion h

/-- Invariant after a trailing-edge invocation at time `t`. -/
theorem inv_expire_invoking (now t : Nat) (s : SysState)
    (hinv : Inv now s) (hnt : now ≤ t) (hT : s.torn = false)
    (hI : shouldInvoke s.th t = true) (hArgs : s.th.hasLastArgs = true) :
    Inv t { store := s.store,
            th := { lastInvokeTime := t, lastCallTime := s.th.lastCallTime,
                    hasLastArgs := false, timerId := none },
            torn := s.torn, sent := (t, getSnapshot s.store) :: s.sent } := by
  unfold Inv at hinv ⊢
  obtain ⟨hA, hB, hC, hD, hE, hF, hG, hH⟩ := hinv
  obtain ⟨c, hc, hlic⟩ := hD hArgs
  have hcn : c ≤ now := hA c hc
  have hinvt : s.th.lastInvokeTime + wait ≤ t := by
    rcases shouldInvoke_bound s.th t c hc (le_trans hcn hnt) hI with h | h <;>
      omega
  have hchain : List.Chain' (fun a b => b ≤ a) (t :: sentTimes s) := by
    rcases hs : s.sent with _ | ⟨⟨v, p⟩, tl⟩
    · have h0 : sentTimes s = [] := by simp [sentTimes, hs]
      rw [h0]
      exact List.chain'_singleton t
    · have hstS : sentTimes s = v :: tl.map Prod.fst := by simp [sentTimes, hs]
      have hv : s.th.lastInvokeTime = v := hC hT v _ hstS
      have hvn : v ≤ now := hv ▸ hB hT
      rw [hstS]
      refine List.chain'_cons.mpr ⟨le_trans hvn hnt, ?_⟩
      rw [← hstS]
      exact hE
  have hspaced : spacedRev (t :: sentTimes s) = true := by
    rcases hs : s.sent with _ | ⟨⟨v, p⟩, tl⟩
    · have h0 : sentTimes s = [] := by simp [sentTimes, hs]
      rw [h0]
      rfl
    · rcases htl : tl with _ | ⟨⟨u, q⟩, tl2⟩
      · have h1 : sentTimes s = [v] := by simp [sentTimes, hs, htl]
        rw [h1]
        rfl
      · have hstS : sentTimes s = v :: u :: tl2.map Prod.fst := by
          simp [sentTimes, hs, htl]
        have hv : s.th.lastInvokeTime = v := hC hT v _ hstS
        have huv : u ≤ v := by
          have h := hE
          rw [hstS] at h
          exact (List.chain'_cons.mp h).1
        have hFold : spacedRev (v :: u :: tl2.map Prod.fst) = true := by
          rw [← hstS]
          exact hF
        rw [hstS]
        show (Nat.ble (u + wait) t && spacedRev (v :: u :: tl2.map Prod.fst)) =
          true
        rw [Bool.and_eq_true]
        refine ⟨by rw [Nat.ble_eq]; omega, hFold⟩
  refine ⟨?_, ?_, ?_, ?_, hchain, hspaced, ?_, ?_⟩
  · intro c' hc'
    exact le_trans (hA c' hc') hnt
  · intro _
    exact le_refl t
  · intro _ v rest h
    have h' : t :: sentTimes s = v :: rest := h
    exact (List.cons_eq_cons.mp h').1
  · intro h
    exact Bool.noConfusion h
  · intro _ v u rest h hlt
    have h' : t :: sentTimes s = v :: u :: rest := h
    obtain ⟨h1, h2⟩ := List.cons_eq_cons.mp h'
    have hu : s.th.lastInvokeTime = u := hC hT u rest h2
    exact absurd hlt (by omega)
  · intro _
    rfl

/-- Invariant after a trailing edge with no pending args: the timer is
dropped, nothing fires. -/
theorem inv_expire_drop (now t : Nat) (s : SysState)
    (hinv : Inv now s) (hnt : now ≤ t) :
    Inv t { store := s.store,
            th := { lastInvokeTime := s.th.lastInvokeTime,
                    lastCallTime := s.th.lastCallTime,
                    hasLastArgs := false, timerId := none },
            torn := s.torn, sent := s.sent } := by
  unfold Inv at hinv ⊢
  obtain ⟨hA, hB, hC, hD, hE, hF, hG, hH⟩ := hinv
  refine ⟨?_, ?_, hC, ?_, hE, hF, hG, ?_⟩
  · intro c hc
    exact le_trans (hA c hc) hnt
  · intro h
    exact le_trans (hB h) hnt
  · intro h
    exact Bool.noConfusion h
  · intro _
    rfl

/-- Invariant after a timer re-arm (expiry before `shouldInvoke`
passes). -/
theorem inv_retimer (now t : Nat) (s : SysState) (tid : Option Nat)
    (hinv : Inv now s) (hnt : now ≤ t) (hT : s.torn = false) :
    Inv t { store := s.store,
            th := { lastInvokeTime := s.th.lastInvokeTime,
                    lastCallTime := s.th.lastCallTime,
                    hasLastArgs := s.th.hasLastArgs, timerId := tid },
            torn := s.torn, sent := s.sent } := by
  unfold Inv at hinv ⊢
  obtain ⟨hA, hB, hC, hD, hE, hF, hG, hH⟩ := hinv
  refine ⟨?_, ?_, hC, hD, hE, hF, hG, ?_⟩
  · intro c hc
    exact le_trans (hA c hc) hnt
  · intro h
    exact le_trans (hB h) hnt
  · intro h
    rw [hT] at h
    exact Bool.noConfusion h

/-- Invariant after a transaction committed while unsubscribed: only the
store changes. -/
theorem inv_torn_store (now t : Nat) (s : SysState) (store' : Store)
    (hinv : Inv now s) (hnt : now ≤ t) (hT : s.torn = true) :
    Inv t { store := store', th := s.th, torn := true, sent := s.sent } := by
  unfold Inv at hinv ⊢
  obtain ⟨hA, hB, hC, hD, hE, hF, hG, hH⟩ := hinv
  refine ⟨?_, ?_, ?_, hD, hE, hF, ?_, ?_⟩
  · intro c hc
    exact le_trans (hA c hc) hnt
  · intro h
    exact Bool.noConfusion h
  · intro h
    exact Bool.noConfusion h
  · intro h
    exact Bool.noConfusion h
  · intro _
    exact hH hT

/-- The invariant is preserved by every step of the save effect whose
event does not predate the clock. -/
theorem inv_step (now : Nat) (s : SysState) (e : SEvent)
    (hinv : Inv now s) (ht : ∀ t, eventTime e = some t → now ≤ t) :
    Inv ((eventTime e).getD now) (sysStep s e) := by
  cases e with
  | edit t f =>
      have hnt : now ≤ t := ht t rfl
      show Inv t _
      cases hT : s.torn with
      | true =>
          simp only [sysStep, hT, if_true]
          exact inv_torn_store now t s (transact s.store f) hinv hnt hT
      | false =>
          simp only [sysStep, hT, if_false]
          by_cases hI : shouldInvoke s.th t = true
          · have hcall : throttleCall s.th t =
                ({ lastInvokeTime := t, lastCallTime := some t,
                   hasLastArgs := false, timerId := some (t + wait) }, true) := by
              cases htim : s.th.timerId <;> simp [throttleCall, hI, htim]
            rw [hcall]
            exact inv_call_invoking now t s (transact s.store f) hinv hnt hT hI
          · have hIf : shouldInvoke s.th t = false := by simpa using hI
            cases htim : s.th.timerId with
            | none =>
                have hcall : throttleCall s.th t =
                    ({ lastInvokeTime := s.th.lastInvokeTime,
                       lastCallTime := some t,
                       hasLastArgs := true,
                       timerId := some (t + wait) }, false) := by
                  simp [throttleCall, hIf, htim]
                rw [hcall]
                exact inv_call_quiet now t s (transact s.store f)
                  (some (t + wait)) hinv hnt hT
            | some tt =>
                have hcall : throttleCall s.th t =
                    ({ lastInvokeTime := s.th.lastInvokeTime,
                       lastCallTime := some t,
                       hasLastArgs := true, timerId := some tt }, false) := by
                  simp [throttleCall, hIf, htim]
                rw [hcall]
                exact inv_call_quiet now t s (transact s.store f) (some tt)
                  hinv hnt hT
  | apply t snap =>
      have hnt : now ≤ t := ht t rfl
      show Inv t _
      cases hT : s.torn with
      | true =>
          simp only [sysStep, hT, if_true]
          exact inv_torn_store now t s (loadSnapshot s.store snap) hinv hnt hT
      | false =>
          simp only [sysStep, hT, if_false]
          by_cases hI : shouldInvoke s.th t = true
          · have hcall : throttleCall s.th t =
                ({ lastInvokeTime := t, lastCallTime := some t,
                   hasLastArgs := false, timerId := some (t + wait) }, true) := by
              cases htim : s.th.timerId <;> simp [throttleCall, hI, htim]
            rw [hcall]
            exact inv_call_invoking now t s (loadSnapshot s.store snap) hinv
              hnt hT hI
          · have hIf : shouldInvoke s.th t = false := by simpa using hI
            cases htim : s.th.timerId with
            | none =>
                have hcall : throttleCall s.th t =
                    ({ lastInvokeTime := s.th.lastInvokeTime,
                       lastCallTime := some t,
                       hasLastArgs := true,
                       timerId := some (t + wait) }, false) := by
                  simp [throttleCall, hIf, htim]
                rw [hcall]
                exact inv_call_quiet now t s (loadSnapshot s.store snap)
                  (some (t + wait)) hinv hnt hT
            | some tt =>
                have hcall : throttleCall s.th t =
                    ({ lastInvokeTime := s.th.lastInvokeTime,
                       lastCallTime := some t,
                       hasLastArgs := true, timerId := some tt }, false) := by
                  simp [throttleCall, hIf, htim]
                rw [hcall]
                exact inv_call_quiet now t s (loadSnapshot s.store snap)
                  (some tt) hinv hnt hT
  | expire t =>
      have hnt : now ≤ t := ht t rfl
      show Inv t _
      cases htim : s.th.timerId with
      | none =>
          have hst : sysStep s (.expire t) = s := by
            simp [sysStep, throttleExpire, htim]
          rw [hst]
          exact inv_mono now t s hinv hnt
      | some tt =>
          have hT : s.torn = false := by
            cases hsT : s.torn with
            | false => rfl
            | true =>
                unfold Inv at hinv
                rw [hinv.2.2.2.2.2.2.2 hsT] at htim
                exact Option.noConfusion htim
          by_cases hI : shouldInvoke s.th t = true
          · cases hArgs : s.th.hasLastArgs with
            | true =>
                have hexp : throttleExpire s.th t =
                    ({ lastInvokeTime := t,
                       lastCallTime := s.th.lastCallTime,
                       hasLastArgs := false, timerId := none }, true) := by
                  simp [throttleExpire, htim, hI, hArgs]
                simp only [sysStep]
                rw [hexp]
                exact inv_expire_invoking now t s hinv hnt hT hI hArgs
            | false =>
                have hexp : throttleExpire s.th t =
                    ({ lastInvokeTime := s.th.lastInvokeTime,
                       lastCallTime := s.th.lastCallTime,
                       hasLastArgs := false, timerId := none }, false) := by
                  simp [throttleExpire, htim, hI, hArgs]
                simp only [sysStep]
                rw [hexp]
                exact inv_expire_drop now t s hinv hnt
          · have hIf : shouldInvoke s.th t = false := by simpa using hI
            have hexp : throttleExpire s.th t =
                ({ lastInvokeTime := s.th.lastInvokeTime,
                   lastCallTime := s.th.lastCallTime,
                   hasLastArgs := s.th.hasLastArgs,
                   timerId := some (t + remainingWait s.th t) }, false) := by
              simp [throttleExpire, htim, hIf]
            simp only [sysStep]
            rw [hexp]
            exact inv_retimer now t s (some (t + remainingWait s.th t)) hinv
              hnt hT
  | saveResult ok => exact hinv
  | teardown =>
      show Inv now _
      unfold Inv at hinv ⊢
      obtain ⟨hA, hB, hC, hD, hE, hF, hG, hH⟩ := hinv
      refine ⟨?_, ?_, ?_, ?_, hE, hF, ?_, ?_⟩
      · intro c hc
        exact Option.noConfusion hc
      · intro h
        exact Bool.noConfusion h
      · intro h
        exact Bool.noConfusion h
      · intro h
        exact Bool.noConfusion h
      · intro h
        exact Bool.noConfusion h
      · intro _
        rfl

/-- The invariant holds at effect setup. -/
theorem inv_init : Inv 0 sysInit := by
  unfold Inv
  refine ⟨?_, ?_, ?_, ?_, ?_, ?_, ?_, ?_⟩ <;>
    simp [sysInit, ThrottleState.initial, sentTimes, spacedRev]

/-- The invariant holds after any well-formed run. -/
theorem inv_run (now : Nat) (s : SysState) (es : List SEvent)
    (hinv : Inv now s) (hwf : wfFrom now es = true) :
    ∃ m, Inv m (sysRun s es) := by
  induction es generalizing now s with
  | nil => exact ⟨now, hinv⟩
  | cons e es ih =>
      cases hte : eventTime e with
      | some t =>
          have hwf' := hwf
          unfold wfFrom at hwf'
          rw [hte, Bool.and_eq_true] at hwf'
          have hnt : now ≤ t := Nat.le_of_ble_eq_true hwf'.1
          have hstep := inv_step now s e hinv
            (fun t' h => by
              rw [hte] at h
              injection h with h
              rw [← h]
              exact hnt)
          rw [hte] at hstep
          exact ih t (sysStep s e) hstep hwf'.2
      | none =>
          have hwf' := hwf
          unfold wfFrom at hwf'
          rw [hte] at hwf'
          have hstep := inv_step now s e hinv
            (fun t' h => by rw [hte] at h; exact Option.noConfusion h)
          rw [hte] at hstep
          exact ih now (sysStep s e) hstep hwf'

/-- C7 (counterexample): the claim says at most one network write occurs
per fixed interval.  lodash's throttle does not guarantee that: in the
well-formed run "edit at 0 (leading fire), edit at 1 (coalesced), timer
at 500 (trailing fire), edit at 501" the `timeSinceLastCall ≥ wait` test
(last call was at 1) lets the edit at 501 fire a fresh leading edge, so
two writes land 1 ms apart — far less than the 500 ms interval. -/
theorem two_saves_within_one_interval :
    wfFrom 0 c7trace = true ∧
    sentTimes (sysRun sysInit c7trace) = [501, 500, 0] ∧
    501 - 500 < wait := by
  decide

/-- C7 (amended): saves are throttled, not debounced, with (a) a rate
limit of at most two writes per interval — among any three consecutive
writes the outer two are at least the interval apart (a trailing fire
may be followed by a fresh leading fire sooner, as the counterexample
shows); (b) a leading-edge fire: with no armed timer and `shouldInvoke`
passing (first edit, or a quiet period), the triggering edit is
persisted immediately with its own data; (c) trailing-edge coalescing:
edits inside the throttle window send nothing at call time, and the
trailing timer fire sends exactly one write carrying the store's latest
state; (d) teardown cancels the pending timer and unsubscribes, so no
save ever fires after teardown. -/
theorem save_throttle_rate_limited :
    (∀ es, wfFrom 0 es = true →
      spacedRev (sentTimes (sysRun sysInit es)) = true) ∧
    (∀ s t f, s.torn = false → s.th.timerId = none →
      shouldInvoke s.th t = true →
      (sysStep s (.edit t f)).sent =
        (t, f (getSnapshot s.store)) :: s.sent) ∧
    (∀ s t f, s.torn = false → shouldInvoke s.th t = false →
      (sysStep s (.edit t f)).sent = s.sent) ∧
    (∀ s t tt, s.th.timerId = some tt → shouldInvoke s.th t = true →
      s.th.hasLastArgs = true →
      (sysStep s (.expire t)).sent = (t, getSnapshot s.store) :: s.sent) ∧
    (∀ s es, (sysRun (sysStep s .teardown) es).sent = s.sent) := by
  refine ⟨?_, ?_, ?_, ?_, ?_⟩
  · intro es hwf
    obtain ⟨m, hinv⟩ := inv_run 0 sysInit es inv_init hwf
    unfold Inv at hinv
    exact hinv.2.2.2.2.2.1
  · intro s t f hT htim hI
    simp [sysStep, hT, throttleCall, hI, htim, transact, getSnapshot]
  · intro s t f hT hIf
    cases htim : s.th.timerId <;>
      simp [sysStep, hT, throttleCall, hIf, htim]
  · intro s t tt htim hI hArgs
    simp [sysStep, throttleExpire, htim, hI, hArgs, getSnapshot]
  · intro s es
    exact run_sent_of_torn (sysStep s .teardown) es rfl rfl

/-- Witness for the amended C7: the counterexample trace itself is
rate-limit spaced (writes at 501, 500, 0 — the outer two are 501 ≥ 500
apart), and the very first edit on a fresh system fires immediately
(leading edge) carrying its own data. -/
theorem save_throttle_rate_limited_witness :
    spacedRev (sentTimes (sysRun sysInit c7trace)) = true ∧
    (sysStep sysInit (.edit 0 insShape)).sent =
      (0, insShape (getSnapshot sysInit.store)) :: sysInit.sent :=
  ⟨save_throttle_rate_limited.1 c7trace (by decide),
   save_throttle_rate_limited.2.1 sysInit 0 insShape rfl rfl rfl⟩

end Whiteboard

namespace ColorStyle

/-- C9: for every theme, variant and color value, a color that is not
one of the default color names passes through `getColorValue` unchanged
as an opaque value, and a default color name resolves to exactly the
palette entry `theme[color][variant]`. -/
theorem getColorValue_palette_or_passthrough (theme : TLDefaultColorTheme)
    (color : String) (variant : ColorVariant) :
    (color ∉ defaultColorNames →
      getColorValue theme color variant = color) ∧
    (color ∈ defaultColorNames →
      getColorValue theme color variant =
        (themeColor theme color).get variant) := by
  constructor
  · intro h
    have hb : isDefaultThemeColor color = false := by
      simp [isDefaultThemeColor]
      exact h
    simp [getColorValue, hb]
  · intro h
    have hb : isDefaultThemeColor color = true := by
      simp [isDefaultThemeColor]
      exact h
    simp [getColorValue, hb]

/-- Witness for C9: the custom value `"#ff0000"` passes through; the
default name `"red"` resolves to the palette row's entry. -/
theorem getColorValue_palette_or_passthrough_witness :
    getColorValue testTheme "#ff0000" .solid = "#ff0000" ∧
    getColorValue testTheme "red" .solid =
      (themeColor testTheme "red").get .solid :=
  ⟨(getColorValue_palette_or_passthrough testTheme "#ff0000" .solid).1
     (by decide),
   (getColorValue_palette_or_passthrough testTheme "red" .solid).2
     (by decide)⟩

end ColorStyle

namespace QuickActions

/-- C10: with `USE_REDO_GROUP` and `USE_DELETE_DUPLICATE_GROUP` both
false, `DefaultQuickActionsContent` never renders a menu action item:
in readonly mode outside the select/hand/zoom states it yields nothing,
and otherwise it yields an empty fragment — never an undo, redo, delete
or duplicate item, for every editor state. -/
theorem quick_actions_render_nothing (isReadonlyMode
    isInAcceptableReadonlyState canUndo canRedo oneSelected
    isInSelectState : Bool) :
    DefaultQuickActionsContent isReadonlyMode isInAcceptableReadonlyState
        canUndo canRedo oneSelected isInSelectState =
      (if isReadonlyMode && !isInAcceptableReadonlyState then none
       else some []) := by
  cases isReadonlyMode <;> cases isInAcceptableReadonlyState <;>
    simp [DefaultQuickActionsContent, USE_REDO_GROUP,
      USE_DELETE_DUPLICATE_GROUP]

end QuickActions
